import Mathlib

/-!
Verification development for the multi-agent conversation orchestration
engine of this repository (`backend/conversation_manager.py` and
`backend/agents/marketing_agents.py`).

The Python code is shallowly embedded:

* Python strings are Lean `String`s; the Python string primitives used by
  the code (`in`, `lower`, `split`, `strip`, `startswith`) are modelled by
  executable functions over the underlying character lists (`py...` below),
  with ASCII semantics (every keyword table in the source is ASCII).
* Python dicts holding structured agent output are association lists of
  `String × Val` kept in insertion order, matching CPython dict ordering;
  `Val` is a JSON-like value type.
* Python sets of topic strings are lists with insert-if-absent; only
  membership is ever observed, so insertion order is irrelevant.
* Wall-clock timestamps (`datetime.now().isoformat()`) inside produced
  payloads are threaded through as an opaque string parameter `ts`; the
  timestamp fields of transcript entries are not carried, no claim
  mentions them.
* `random.choice` appears only in `_dynamic_round` and the two
  `_find_*` helpers it calls; with the configured `max_rounds = 3` and the
  literal `round_num < 3` test in `_conversation_phase`, that path is
  unreachable and is not modelled.
* Failure of the external completion provider (`openai` call raising) is
  the situation studied by the degradation claims; the session model
  `start_collaboration_failing` below is the orchestrator specialised to a
  provider that raises on every call, which makes the whole session a
  deterministic function of the selected agents, the project context, the
  provider error text and the timestamp parameter.
-/

/- ===================== Python string primitives ===================== -/

/-- Python `needle in hay` on character lists: `needle` occurs contiguously. -/
def infixOfChars (needle : List Char) : List Char → Bool
  | [] => needle.isEmpty
  | c :: rest => needle.isPrefixOf (c :: rest) || infixOfChars needle rest

/-- Python substring test `needle in hay`. -/
def pyIn (needle hay : String) : Bool := infixOfChars needle.data hay.data

/-- Python `s.lower()` (ASCII case folding; every keyword in the source is ASCII). -/
def pyLower (s : String) : String := String.mk (s.data.map Char.toLower)

/-- Python `s.startswith(p)`. -/
def pyStartsWith (s p : String) : Bool := p.data.isPrefixOf s.data

/-- Python `s.strip()`: whitespace removed from both ends. -/
def pyStrip (s : String) : String :=
  String.mk (((s.data.dropWhile Char.isWhitespace).reverse.dropWhile Char.isWhitespace).reverse)

/-- Python `s.split()` with no separator: split on whitespace runs, no empty parts. -/
def pySplitWs (s : String) : List String :=
  ((s.data.splitOnP Char.isWhitespace).filter (fun l => !l.isEmpty)).map String.mk

/-- Worker for `pySplitOn`: splits `hay` at every occurrence of the separator
`c :: cs`, leftmost first, like Python `str.split(sep)`. Structural recursion
on a fuel argument so the kernel can evaluate it; every step consumes at
least one character of `hay`, so fuel `hay.length + 1` never runs out (the
fuel-exhaustion branch returns the remaining text unsplit). -/
def splitSepGo (c : Char) (cs : List Char) : Nat → List Char → List Char → List (List Char)
  | 0, hay, acc => [acc.reverse ++ hay]
  | _ + 1, [], acc => [acc.reverse]
  | fuel + 1, d :: rest, acc =>
    if (c :: cs).isPrefixOf (d :: rest) then
      acc.reverse :: splitSepGo c cs fuel (rest.drop cs.length) []
    else
      splitSepGo c cs fuel rest (d :: acc)

/-- Python `s.split(sep)` for a non-empty separator (Python raises on an empty
separator; both call sites pass a literal non-empty one). -/
def pySplitOn (sep s : String) : List String :=
  match sep.data with
  | [] => [s]
  | c :: cs => (splitSepGo c cs (s.data.length + 1) s.data []).map String.mk

/- ===================== JSON-like values and dicts ===================== -/

/-- Structured values produced by agents: the JSON-ish payloads the Python
code passes around as nested dicts, lists and strings. -/
inductive Val where
  | str : String → Val
  | list : List Val → Val
  | obj : List (String × Val) → Val

/-- A Python dict with string keys, in insertion order. -/
abbrev Obj := List (String × Val)

/-- First value bound to `k`, Python `d.get(k)` / `d[k]`. -/
def dictFind (k : String) : Obj → Option Val
  | [] => none
  | (k', v) :: rest => if k' = k then some v else dictFind k rest

/-- Python `d.get(k, "")` where the caller expects string values; a bound
non-string value (which the callers would pass on to `in` / `join` and crash)
does not occur in the payloads this development builds. -/
def getStrD (d : Obj) (k : String) : String :=
  match dictFind k d with
  | some (.str s) => s
  | _ => ""

/-- Python `d[k] = v`: overwrite in place when the key exists (keeping its
position), append otherwise. -/
def dictSet (d : Obj) (k : String) (v : Val) : Obj :=
  if (dictFind k d).isSome then
    d.map (fun p => if p.1 = k then (p.1, v) else p)
  else d ++ [(k, v)]

/-- Python `base.update(new)`: shallow merge, later writes win. -/
def objUpdate (base new : Obj) : Obj :=
  new.foldl (fun acc kv => dictSet acc kv.1 kv.2) base

/- ===================== TopicTracker ===================== -/

/-- The repetition-indicator words of `_is_repetitive_topic`. -/
def repetitive_indicators : List String :=
  ["budget", "timeline", "strategy", "approach", "plan",
   "recommend", "suggest", "important", "key", "focus"]

/-- `ConversationManager._is_repetitive_topic`: counts indicator words that
occur in the lowercased message and are already in `discussed_topics`;
repetitive iff more than 2. -/
def is_repetitive_topic (discussed_topics : List String) (message_content : String) : Bool :=
  let message_lower := pyLower message_content
  let topic_mentions :=
    repetitive_indicators.countP
      (fun indicator => pyIn indicator message_lower && discussed_topics.contains indicator)
  decide (topic_mentions > 2)

/-- The tracker vocabulary of `_track_discussed_topic`. -/
def key_topics : List String :=
  ["budget", "timeline", "creative", "data", "media", "content",
   "brand", "market", "customer", "implementation", "roi", "kpi"]

/-- `ConversationManager._track_discussed_topic`: adds every vocabulary word
occurring in the lowercased contribution to the discussed set; an empty
contribution is ignored. -/
def track_discussed_topic (discussed_topics : List String) (contribution : String) : List String :=
  if contribution = "" then discussed_topics
  else
    let contribution_lower := pyLower contribution
    key_topics.foldl
      (fun d topic => if pyIn topic contribution_lower then d.insert topic else d)
      discussed_topics

/- ===================== DeliverableMerger ===================== -/

/-- The per-role allow-lists of `_ensure_unique_deliverables`
(`agent_unique_areas` in the source), in literal order. -/
def agent_unique_areas : List (String × List String) :=
  [("Market Researcher",
    ["competitive_analysis", "market_insights", "competitor_threats", "market_positioning_opportunity"]),
   ("Brand Strategist",
    ["brand_positioning", "messaging_framework", "brand_story", "brand_equity_goals"]),
   ("Creative Director",
    ["creative_concepts", "creative_system", "virality_factors", "emotional_storytelling"]),
   ("Media Planner",
    ["media_strategy", "channel_optimization", "budget_allocation", "reach_frequency"]),
   ("Data Analyst",
    ["kpi_framework", "attribution_modeling", "conversion_optimization", "predictive_analytics"]),
   ("Content Strategist",
    ["content_strategy", "editorial_strategy", "seo_optimization", "content_distribution"]),
   ("Customer Insights",
    ["user_personas", "customer_journey", "behavioral_analysis", "user_experience"]),
   ("Implementation Specialist",
    ["execution_plan", "resource_requirements", "risk_mitigation", "phase_timeline"]),
   ("Angel Investor",
    ["investment_analysis", "funding_strategy", "valuation_assessment", "roi_expectations"])]

/-- The role-lookup loop of `_ensure_unique_deliverables`: the first role key
that is a substring of `agent_name`, or one of whose space-separated words is a
substring of `agent_name`. Note the probe is the agent's display name, not its
role. -/
def find_role_key (agent_name : String) : Option String :=
  (agent_unique_areas.map Prod.fst).find?
    (fun role_key =>
      pyIn role_key agent_name
        || (pySplitWs role_key).any (fun role_part => pyIn role_part agent_name))

/-- The allow-list filter inside `_ensure_unique_deliverables`: keep the keys
that contain (case-insensitively) one of the role's allowed area substrings. -/
def ownership_filter (allowed_areas : List String) (deliverables : Obj) : Obj :=
  deliverables.filter
    (fun kv => (allowed_areas.map pyLower).any (fun area => pyIn area (pyLower kv.1)))

/-- `ConversationManager._ensure_unique_deliverables` (output only: the
`agent_insights` bookkeeping set it also touches is written and never read).
Role found: filter to the allowed areas, with the non-empty-input minimum
guarantee of keeping the first input key; role not found: pass everything
through. -/
def ensure_unique_deliverables (agent_name : String) (deliverables : Obj) : Obj :=
  let unique_deliverables :=
    match find_role_key agent_name with
    | some role_key =>
        ownership_filter ((agent_unique_areas.lookup role_key).getD []) deliverables
    | none => deliverables
  if unique_deliverables.isEmpty && !deliverables.isEmpty then
    match deliverables with
    | kv :: _ => [kv]
    | [] => unique_deliverables
  else unique_deliverables

/- ===================== Expertise angle (BaseAgent) ===================== -/

/-- The per-role angle table of `_get_unique_expertise_angle`. -/
def role_angles : List (String × List String) :=
  [("Market Researcher",
    ["competitive intelligence", "consumer behavior analysis", "market sizing", "trend forecasting"]),
   ("Brand Strategist",
    ["brand positioning", "messaging hierarchy", "competitive differentiation", "brand architecture"]),
   ("Creative Director",
    ["visual storytelling", "creative concept development", "brand expression", "campaign ideation"]),
   ("Media Planner",
    ["channel optimization", "budget allocation", "media mix modeling", "reach and frequency"]),
   ("Data Analyst",
    ["performance metrics", "ROI analysis", "attribution modeling", "predictive analytics"]),
   ("Content Strategist",
    ["editorial strategy", "SEO optimization", "content distribution", "audience engagement"]),
   ("Customer Insights Specialist",
    ["user journey mapping", "persona development", "behavioral segmentation", "customer lifetime value"]),
   ("Implementation Specialist",
    ["project management", "timeline optimization", "resource allocation", "execution planning"]),
   ("Angel Investor",
    ["investment thesis", "market opportunity", "scalability assessment", "funding strategy"])]

/-- The ordered angle list for a role: the table entry, or the
`["strategic analysis"]` default of `role_angles.get(self.role, ...)`. -/
def available_angles (role : String) : List String :=
  (role_angles.lookup role).getD ["strategic analysis"]

/-- `BaseAgent._get_unique_expertise_angle`: first angle none of whose
space-separated keywords is in `discussed_topics`, else the first angle. -/
def get_unique_expertise_angle (role : String) (discussed_topics : List String) : String :=
  let angles := available_angles role
  match angles.find? (fun angle => !(pySplitWs angle).any (fun k => discussed_topics.contains k)) with
  | some angle => angle
  | none => angles.headD ""

/-- Spec-side recursion for the claim on focus-angle selection: the first
angle whose keywords are all fresh, `none` when every angle has a discussed
keyword. -/
def first_fresh_angle (discussed_topics : List String) : List String → Option String
  | [] => none
  | angle :: rest =>
      if (pySplitWs angle).all (fun k => !discussed_topics.contains k) then some angle
      else first_fresh_angle discussed_topics rest

/- ===================== JSON parsing (BaseAgent) ===================== -/

/-- The fenced-code stripping of `_parse_json_response`: the text between the
first two occurrences of the fence marker, whitespace-stripped. Note the
variable `response` is rebound, so a later fallback sees the stripped text. -/
def stripFence (response : String) : String :=
  if pyStartsWith response "```json" then
    pyStrip (((pySplitOn "```" ((pySplitOn "```json" response).getD 1 ""))).getD 0 "")
  else if pyStartsWith response "```" then
    pyStrip (((pySplitOn "```" ((pySplitOn "```" response).getD 1 ""))).getD 0 "")
  else response

/-- `BaseAgent._parse_json_response`, parameterized by the external JSON
parser: `loads s = none` models `json.loads` raising `JSONDecodeError`,
`loads s = some v` models a successful parse. On parse failure the (possibly
fence-stripped) text is wrapped in the minimal stand-in dict. -/
def parse_json_response (loads : String → Option Val) (response : String) : Val :=
  let r := stripFence response
  match loads r with
  | some v => v
  | none => .obj [("message", .str r), ("action_taken", .str "response"), ("data_produced", .obj [])]

/-- A JSON parser restricted to inputs that are not valid JSON: used to
instantiate `parse_json_response` at concrete non-JSON inputs. -/
def loadsNone : String → Option Val := fun _ => none

/- ===================== Transcript entries ===================== -/

/-- One transcript entry of `conversation_log` (the wall-clock `timestamp`
field is not carried; no claim mentions it). -/
structure Entry where
  agent_name : String
  agent_role : String
  message_type : String
  content : Obj
  responding_to : Option String
  round : Nat

/- ===================== Early-stop predicate ===================== -/

/-- The completion-signal words of `_should_end_conversation`. -/
def completion_signals : List String :=
  ["finalize", "complete", "ready to", "final", "conclude"]

/-- The `recent_messages` slice of `_should_end_conversation`:
`conversation_log[-3:] if len(conversation_log) >= 3 else []`. -/
def recent_for_end (log : List Entry) : List Entry :=
  if log.length ≥ 3 then log.drop (log.length - 3) else []

/-- Number of distinct completion-signal words occurring as substrings of the
space-joined, lowercased text of the last three transcript messages. -/
def signal_count (log : List Entry) : Nat :=
  let recent_text :=
    pyLower (String.intercalate " " ((recent_for_end log).map (fun m => getStrD m.content "message")))
  completion_signals.countP (fun signal => pyIn signal recent_text)

/-- `ConversationManager._should_end_conversation` (a pure function of the
round counter, the round cap and the transcript). -/
def should_end_conversation (conversation_rounds max_rounds : Nat) (log : List Entry) : Bool :=
  if conversation_rounds ≥ max_rounds then true
  else
    let recent_messages := recent_for_end log
    if recent_messages.length ≥ 2 then
      if signal_count log ≥ 2 then true else false
    else false

/-- The early-stop predicate as the spec's sentence states it: fires once at
least 2 rounds have elapsed and the signal count over the last three messages
is at least 2. Written from the spec's words, to compare with
`should_end_conversation`. -/
def claimed_early_stop (conversation_rounds : Nat) (log : List Entry) : Bool :=
  decide (conversation_rounds ≥ 2) && decide (signal_count log ≥ 2)

/- ===================== Conversation round loop ===================== -/

/-- The loop skeleton of `_conversation_phase`: `for round_num in
range(max_rounds)` sets `conversation_rounds = round_num + 1`, runs the round,
and breaks when `_should_end_conversation()` holds. `shouldEnd r` abstracts
that call as evaluated after round `r` (its transcript argument is the log as
it stands then); the returned value is the final `conversation_rounds`. -/
def conv_rounds_go (shouldEnd : Nat → Bool) : Nat → Nat → Nat → Nat
  | 0, _, rounds => rounds
  | n + 1, round_num, _ =>
      if shouldEnd (round_num + 1) then round_num + 1
      else conv_rounds_go shouldEnd n (round_num + 1) (round_num + 1)

/-- Final `conversation_rounds` (the session result's `total_rounds`) after
`_conversation_phase` with the given cap and stop oracle. -/
def conversation_rounds_after (max_rounds : Nat) (shouldEnd : Nat → Bool) : Nat :=
  conv_rounds_go shouldEnd max_rounds 0 0

/- ===================== Agent factory ===================== -/

/-- The nine concrete agent classes of `AVAILABLE_AGENTS`. -/
inductive AgentType where
  | market_researcher
  | brand_strategist
  | creative_director
  | media_planner
  | data_analyst
  | content_strategist
  | customer_insights
  | implementation_specialist
  | investor
deriving DecidableEq

/-- Display name fixed by each class constructor. -/
def AgentType.name : AgentType → String
  | .market_researcher => "Sarah Chen"
  | .brand_strategist => "Marcus Rivera"
  | .creative_director => "Elena Vasquez"
  | .media_planner => "David Kim"
  | .data_analyst => "Priya Patel"
  | .content_strategist => "Jake Thompson"
  | .customer_insights => "Amy Wong"
  | .implementation_specialist => "Jordan Rivera"
  | .investor => "Robert Chen"

/-- Role fixed by each class constructor. -/
def AgentType.role : AgentType → String
  | .market_researcher => "Market Researcher"
  | .brand_strategist => "Brand Strategist"
  | .creative_director => "Creative Director"
  | .media_planner => "Media Planner"
  | .data_analyst => "Data Analyst"
  | .content_strategist => "Content Strategist"
  | .customer_insights => "Customer Insights Specialist"
  | .implementation_specialist => "Implementation Specialist"
  | .investor => "Angel Investor"

/- ============ MarketResearcher competitor research (failing provider) ============ -/

/-- `MarketResearcher._extract_competitors_from_goal`, with Python's
`words[j][0].isupper() and len(words[j]) > 2` probe on capitalized words. -/
def extract_competitors_from_goal (project_goal : String) : List String :=
  let goal_lower := pyLower project_goal
  let competitor_patterns := ["compete with", "against", "vs", "versus", "beat", "outperform"]
  let competitors :=
    if competitor_patterns.any (fun p => pyIn p goal_lower) then
      let words := pySplitWs project_goal
      ((List.range words.length).map (fun i =>
        if competitor_patterns.any (fun p => pyIn p (pyLower (words.getD i ""))) then
          (List.range' (i + 1) (min (i + 4) words.length - (i + 1))).filterMap (fun j =>
            let w := words.getD j ""
            if (w.data.headD ' ').isUpper && decide (w.length > 2) then some w else none)
        else [])).flatten
    else []
  let competitors :=
    if competitors.isEmpty then
      if pyIn "saas" goal_lower || pyIn "software" goal_lower then
        ["Salesforce", "HubSpot", "Microsoft"]
      else if pyIn "ecommerce" goal_lower || pyIn "retail" goal_lower then
        ["Amazon", "Shopify", "BigCommerce"]
      else if pyIn "startup" goal_lower then
        ["Y Combinator companies", "TechStars portfolio", "Industry leaders"]
      else
        ["Market leader", "Key competitor", "Industry incumbent"]
    else competitors
  competitors.take 3

/-- Python `f"{v}"` where the value is a string; non-string weakness values do
not occur in the runs modelled here (Python would render their repr). -/
def pyFStr (v : Val) : String :=
  match v with
  | .str s => s
  | _ => ""

/-- Python `v.get(k)` where `v` is one of the nested dict values. -/
def valGet (k : String) (v : Val) : Option Val :=
  match v with
  | .obj kvs => dictFind k kvs
  | _ => none

/-- `MarketResearcher._generate_market_insights` over the per-competitor
analysis dict. -/
def generate_market_insights (competitor_data : Obj) : List Val :=
  let high_threat :=
    (competitor_data.filter (fun p =>
      match valGet "threat_level" p.2 with
      | some (.str s) => s == "high"
      | _ => false)).map Prod.fst
  let insights : List Val :=
    if !high_threat.isEmpty then
      [.str ("High-threat competitors identified: " ++ String.intercalate ", " high_threat)]
    else []
  let all_weaknesses :=
    (competitor_data.map (fun p =>
      match valGet "weaknesses" p.2 with
      | some (.list ws) => ws
      | _ => [])).flatten
  let insights :=
    insights ++
      (if !all_weaknesses.isEmpty then
        [Val.str ("Market gap opportunity: " ++ pyFStr (all_weaknesses.headD (.str "")))]
      else [])
  insights ++ [.str "Competitive pricing analysis completed - use for strategic positioning"]

/-- `MarketResearcher.conduct_competitor_research` when every completion call
raises with message `err`: each competitor's analysis degrades to the
per-competitor error dict. -/
def conduct_competitor_research_failing (err ts project_goal : String) : Obj :=
  let competitors := extract_competitors_from_goal project_goal
  let competitor_data : Obj :=
    (competitors.take 3).foldl
      (fun acc competitor =>
        dictSet acc competitor
          (.obj [("error", .str ("Could not analyze " ++ competitor ++ ": " ++ err)),
                 ("competitor_name", .str competitor),
                 ("threat_level", .str "unknown")]))
      []
  [("research_type", .str "competitive_intelligence"),
   ("competitors_analyzed", .list (competitor_data.map (fun p => .str p.1))),
   ("detailed_analysis", .obj competitor_data),
   ("research_timestamp", .str ts),
   ("market_insights", .list (generate_market_insights competitor_data))]

/-- The competitor-keyword test guarding `MarketResearcher.initiate_conversation`. -/
def needs_competitor_research (context : String) : Bool :=
  ["compete", "competitor", "vs", "against", "beat"].any (fun k => pyIn k (pyLower context))

/- ============ Per-agent fallback payloads (failing provider) ============ -/

/-- `BaseAgent.initiate_conversation`'s except-branch payload. -/
def base_introduction_fallback (t : AgentType) : Obj :=
  [("message", .str ("Hello team! I'm " ++ t.name ++ ", and I'll be handling " ++ t.role ++ " for this project.")),
   ("action_taken", .str "introduction"),
   ("deliverables", .obj []),
   ("insights", .list []),
   ("questions_for_team", .list [])]

/-- `MarketResearcher.initiate_conversation` with a failing provider: the
competitor-research pre-step still succeeds (its per-competitor calls degrade
internally), otherwise the base fallback. -/
def market_researcher_initiate_failing (ctx err ts : String) : Obj :=
  if needs_competitor_research ctx then
    let research := conduct_competitor_research_failing err ts ctx
    [("message", .str ("I've conducted real-time competitive intelligence research for this project. Found "
        ++ toString (match dictFind "competitors_analyzed" research with
                     | some (.list xs) => xs.length
                     | _ => 0)
        ++ " key competitors to analyze.")),
     ("action_taken", .str "competitive_intelligence_research"),
     ("deliverables", .obj
       [("competitive_analysis", .obj research),
        ("market_positioning_opportunity", .str "Based on competitor weaknesses identified"),
        ("competitive_threats", (dictFind "competitors_analyzed" research).getD (.list [])),
        ("market_intelligence", (dictFind "market_insights" research).getD (.list []))]),
     ("insights", (dictFind "market_insights" research).getD (.list [])),
     ("questions_for_team", .list
       [.str "Which competitor poses the biggest threat to our strategy?",
        .str "How should we position against their key strengths?"])]
  else base_introduction_fallback .market_researcher

/-- `BrandStrategist.initiate_conversation`'s except-branch payload. -/
def brand_strategist_initiate_fallback (ctx : String) : Obj :=
  [("message", .str ("I'm developing a breakthrough brand positioning strategy for: " ++ ctx
      ++ ". This won't be another generic 'premium quality' approach - we're going bold.")),
   ("action_taken", .str "strategic_brand_architecture"),
   ("deliverables", .obj
     [("brand_positioning", .str "Developing unique market position that competitors can't replicate"),
      ("messaging_framework", .str "Building 3-pillar messaging architecture for consistent communication"),
      ("differentiation_strategy", .str "Creating sustainable competitive brand advantages"),
      ("brand_story", .str "Crafting authentic narrative for emotional market connection"),
      ("brand_equity_goals", .str "Setting measurable brand value and recognition targets")]),
   ("insights", .list
     [.str "Brand differentiation must be authentic and defensible",
      .str "Emotional connection drives premium pricing power"]),
   ("questions_for_team", .list
     [.str "What's our brand's authentic truth that competitors can't copy?",
      .str "How do we measure brand equity growth over time?"])]

/-- `CreativeDirector.initiate_conversation`'s except-branch payload. -/
def creative_director_initiate_fallback (ctx : String) : Obj :=
  [("message", .str ("I'm developing breakthrough creative concepts for: " ++ ctx
      ++ ". We're not doing another boring corporate campaign - these concepts will demand attention.")),
   ("action_taken", .str "breakthrough_creative_architecture"),
   ("deliverables", .obj
     [("creative_concepts", .str "3 breakthrough concepts designed for viral sharing"),
      ("emotional_storytelling", .str "Narrative frameworks that create deep connection"),
      ("attention_architecture", .str "Creative systems designed to stop scrolling and drive engagement"),
      ("cross_platform_adaptation", .str "How concepts scale across all marketing channels"),
      ("shareability_design", .str "Elements specifically crafted for organic amplification")]),
   ("insights", .list
     [.str "Breakthrough creative requires emotional courage",
      .str "Shareable content solves problems or sparks emotions"]),
   ("questions_for_team", .list
     [.str "Are we brave enough to stand out from competitors?",
      .str "What's our creative risk tolerance?"])]

/-- `DataAnalyst.initiate_conversation`'s except-branch payload. -/
def data_analyst_initiate_fallback (ctx : String) : Obj :=
  [("message", .str ("I'm building an advanced analytics framework for: " ++ ctx
      ++ ". We'll track specific metrics that drive business growth, not vanity metrics.")),
   ("action_taken", .str "performance_measurement_architecture"),
   ("deliverables", .obj
     [("kpi_framework", .str "Primary metrics with specific targets and industry benchmarks"),
      ("attribution_modeling", .str "Advanced attribution system for accurate ROI measurement"),
      ("conversion_optimization", .str "Data-driven opportunities to improve performance by 20-40%"),
      ("predictive_analytics", .str "Machine learning framework for scaling predictions"),
      ("real_time_dashboard", .str "Live performance monitoring with actionable insights")]),
   ("insights", .list
     [.str "Focus on metrics that directly correlate with revenue growth",
      .str "Attribution models must account for multi-touch customer journeys"]),
   ("questions_for_team", .list
     [.str "What's our customer acquisition cost threshold?",
      .str "Which conversion metrics drive highest LTV?"])]

/-- `ImplementationSpecialist.initiate_conversation`'s except-branch payload. -/
def implementation_specialist_initiate_fallback (ctx : String) : Obj :=
  [("message", .str ("I'm creating a detailed implementation plan for: " ++ ctx)),
   ("action_taken", .str "implementation_planning"),
   ("deliverables", .obj
     [("timeline", .str "12-week implementation roadmap"),
      ("budget", .str "Cost breakdown by channel and activity"),
      ("content_plan", .str "Detailed content calendar with specific deliverables"),
      ("kpis", .str "Measurable success metrics with target numbers"),
      ("checklist", .str "Step-by-step implementation guide")]),
   ("insights", .list [.str "Focus on concrete deliverables over high-level strategy"]),
   ("questions_for_team", .list [.str "What's our budget range?", .str "What's our timeline?"])]

/-- `Investor.initiate_conversation`'s except-branch payload. -/
def investor_initiate_fallback (ctx : String) : Obj :=
  [("message", .str ("As an investor, I'm evaluating the funding potential for: " ++ ctx)),
   ("action_taken", .str "investment_evaluation"),
   ("deliverables", .obj
     [("investment_range", .str "$100K - $2M depending on stage and traction"),
      ("valuation_range", .str "Based on revenue multiples and market comparables"),
      ("funding_strategy", .str "Multi-stage approach starting with seed funding"),
      ("roi_timeline", .str "3-7 year exit strategy with 10x+ return target"),
      ("due_diligence", .str "Financial model, market validation, team assessment")]),
   ("insights", .list
     [.str "Focus on scalable revenue model",
      .str "Market size is critical for investment decision"]),
   ("questions_for_team", .list
     [.str "What's the total addressable market?",
      .str "What's the customer acquisition cost?"])]

/-- `initiate_conversation` under a failing provider, dispatched per concrete
class: the overriding classes return their own fallback, the rest the base
one. -/
def initiate_fallback (ctx err ts : String) : AgentType → Obj
  | .market_researcher => market_researcher_initiate_failing ctx err ts
  | .brand_strategist => brand_strategist_initiate_fallback ctx
  | .creative_director => creative_director_initiate_fallback ctx
  | .data_analyst => data_analyst_initiate_fallback ctx
  | .implementation_specialist => implementation_specialist_initiate_fallback ctx
  | .investor => investor_initiate_fallback ctx
  | t => base_introduction_fallback t

/-- `BaseAgent.respond_to_agent`'s except-branch payload (identical for every
class; no class overrides `respond_to_agent`). -/
def respond_fallback : Obj :=
  [("message", .str "I'm having trouble processing that. Let me think about it more."),
   ("action_taken", .str "error_handling"),
   ("data_produced", .obj []),
   ("next_steps", .list [.str "retry analysis"]),
   ("questions_for_team", .list [])]

/- ============ Session model: start_collaboration under a failing provider ============ -/

/-- The orchestrator's mutable state for one session (the write-only
`agent_insights` set is omitted, and `thinking_log` keeps only the per-entry
fields the claims mention). -/
structure SessionState where
  log : List Entry
  thinking_log : List (String × String × String)
  deliverables : Obj
  conversation_rounds : Nat
  discussed_topics : List String

/-- `_log_system_message`: appends the system entry (round = current
`conversation_rounds`). -/
def log_system_message (msg : String) (st : SessionState) : SessionState :=
  { st with log := st.log ++
      [{ agent_name := "System", agent_role := "Orchestrator", message_type := "system",
         content := [("message", .str msg)], responding_to := none,
         round := st.conversation_rounds }] }

/-- The degraded thinking entries ((name, role, thinking text); `think`'s
except branch carries the error text and empty lists). -/
def thinking_entries (agents : List AgentType) (err : String) : List (String × String × String) :=
  agents.map (fun t => (t.name, t.role, "Error in thinking process: " ++ err))

/-- `_thinking_phase` with a failing provider: the system message, then one
degraded thinking entry per agent. `asyncio.gather` preserves agent order
here because no coroutine on this path ever suspends. -/
def thinking_phase (agents : List AgentType) (err : String) (st : SessionState) : SessionState :=
  { log_system_message "🧠 Phase 1: Agents are analyzing the project..." st with
      thinking_log := (log_system_message "🧠 Phase 1: Agents are analyzing the project..." st).thinking_log
        ++ thinking_entries agents err }

/-- The transcript append of one `_introduction_phase` turn (round 0). -/
def introduction_log_step (ctx err ts : String) (st : SessionState) (t : AgentType) : SessionState :=
  { st with log := st.log ++
      [{ agent_name := t.name, agent_role := t.role, message_type := "introduction",
         content := initiate_fallback ctx err ts t, responding_to := none, round := 0 }] }

/-- One agent's turn of `_introduction_phase`: append the introduction entry,
then store the ownership-filtered deliverables when the payload's
`deliverables` dict is truthy (non-empty); `initiate_fallback ctx err ts t`
is the `response` local of the source, written out at each use. -/
def introduction_step (ctx err ts : String) (st : SessionState) (t : AgentType) : SessionState :=
  match dictFind "deliverables" (initiate_fallback ctx err ts t) with
  | some (.obj ds) =>
      if !ds.isEmpty then
        { (introduction_log_step ctx err ts st t) with
            deliverables := dictSet st.deliverables t.name
              (.obj (ensure_unique_deliverables t.name ds)) }
      else introduction_log_step ctx err ts st t
  | _ => introduction_log_step ctx err ts st t

/-- `_introduction_phase` with a failing provider. -/
def introduction_phase (ctx err ts : String) (agents : List AgentType) (st : SessionState) : SessionState :=
  agents.foldl (introduction_step ctx err ts)
    (log_system_message "👋 Phase 2: Agents introducing themselves and sharing initial insights..." st)

/-- The transcript entry of one degraded structured-round response. -/
def respond_entry (st : SessionState) (t : AgentType) (last_message : Entry) : Entry :=
  { agent_name := t.name, agent_role := t.role, message_type := "response",
    content := respond_fallback, responding_to := some last_message.agent_name,
    round := st.conversation_rounds }

/-- The state effect of one produced structured-round response: track the
(absent) `contribution` of the degraded payload, append the entry, and merge
`data_produced` when truthy (it is the empty dict here, so no deliverable
update happens). -/
def structured_step_apply (st : SessionState) (t : AgentType) (last_message : Entry) : SessionState :=
  match dictFind "data_produced" respond_fallback with
  | some (.obj ds) =>
      if !ds.isEmpty then
        { st with
            discussed_topics :=
              track_discussed_topic st.discussed_topics (getStrD respond_fallback "contribution"),
            log := st.log ++ [respond_entry st t last_message],
            deliverables := dictSet st.deliverables t.name
              (.obj (objUpdate
                (match dictFind t.name st.deliverables with
                 | some (.obj cur) => cur
                 | _ => []) ds)) }
      else
        { st with
            discussed_topics :=
              track_discussed_topic st.discussed_topics (getStrD respond_fallback "contribution"),
            log := st.log ++ [respond_entry st t last_message] }
  | _ =>
      { st with
          discussed_topics :=
            track_discussed_topic st.discussed_topics (getStrD respond_fallback "contribution"),
          log := st.log ++ [respond_entry st t last_message] }

/-- One agent's turn of `_structured_round` with a failing provider: skip the
first agent on round 1; otherwise respond (degraded) to the latest transcript
entry not authored by this agent, unless the repetition guard skips the
turn. -/
def structured_step (st : SessionState) (it : Nat × AgentType) : SessionState :=
  if it.1 = 0 ∧ st.conversation_rounds = 1 then st
  else
    match (st.log.filter (fun m => m.agent_name ≠ it.2.name)).getLast? with
    | none => st
    | some last_message =>
        if is_repetitive_topic st.discussed_topics (getStrD last_message.content "message") then st
        else structured_step_apply st it.2 last_message

/-- `_structured_round` with a failing provider: agents in order with their
indices. -/
def structured_round (agents : List AgentType) (st : SessionState) : SessionState :=
  agents.enum.foldl structured_step st

/-- The round loop of `_conversation_phase` with a failing provider:
`max_rounds = 3`, so the `round_num < 3` test always selects the structured
round (`_dynamic_round`'s randomized path is unreachable and not modelled:
the `else` keeps the state). Breaks when `_should_end_conversation` holds.
`conv_round_state` is the state after one round body. -/
def conv_round_state (agents : List AgentType) (round_num : Nat) (st : SessionState) : SessionState :=
  if round_num < 3 then structured_round agents { st with conversation_rounds := round_num + 1 }
  else { st with conversation_rounds := round_num + 1 }

def conv_phase_go (agents : List AgentType) : Nat → Nat → SessionState → SessionState
  | 0, _, st => st
  | n + 1, round_num, st =>
      if should_end_conversation (conv_round_state agents round_num st).conversation_rounds 3
          (conv_round_state agents round_num st).log then
        conv_round_state agents round_num st
      else conv_phase_go agents n (round_num + 1) (conv_round_state agents round_num st)

/-- `_conversation_phase` with a failing provider. -/
def conversation_phase (agents : List AgentType) (st : SessionState) : SessionState :=
  conv_phase_go agents 3 0 (log_system_message "💬 Phase 3: Agents collaborating and discussing..." st)

/-- `_finalization_phase` with a failing provider: every agent's final call
raises, so each turn degrades to the `{"summary": "Finalizing <role>
deliverables..."}` stand-in and stores nothing under `deliverables`. -/
def finalization_phase (agents : List AgentType) (st : SessionState) : SessionState :=
  agents.foldl
    (fun st t =>
      { st with log := st.log ++
          [{ agent_name := t.name, agent_role := t.role, message_type := "final_deliverable",
             content := [("summary", .str ("Finalizing " ++ t.role ++ " deliverables..."))],
             responding_to := none, round := st.conversation_rounds }] })
    (log_system_message "📋 Phase 4: Finalizing deliverables and summary..." st)

/-- The session result returned by `start_collaboration`. -/
structure SessionResult where
  conversation_log : List Entry
  thinking_log : List (String × String × String)
  deliverables : Obj
  agents_involved : List (String × String)
  total_rounds : Nat

/-- `ConversationManager.start_collaboration` for a session whose completion
provider raises on every call: runs the four phases over the initial state
and packages the result. Every operation on this path is total — the model
witnesses that no exception escapes any phase. -/
def session_final_state (agents : List AgentType) (ctx err ts : String) : SessionState :=
  finalization_phase agents
    (conversation_phase agents
      (introduction_phase ctx err ts agents
        (thinking_phase agents err
          { log := [], thinking_log := [], deliverables := [],
            conversation_rounds := 0, discussed_topics := [] })))

def start_collaboration_failing (agents : List AgentType) (ctx err ts : String) : SessionResult :=
  { conversation_log := (session_final_state agents ctx err ts).log,
    thinking_log := (session_final_state agents ctx err ts).thinking_log,
    deliverables := (session_final_state agents ctx err ts).deliverables,
    agents_involved := agents.map (fun t => (t.name, t.role)),
    total_rounds := (session_final_state agents ctx err ts).conversation_rounds }

/- ============ Feedback iteration (process_user_feedback) ============ -/

/-- The expertise-match if/elif chain of `process_user_feedback`: does this
agent's role match the feedback's domain keywords? -/
def expertise_match (feedback_lower : String) (t : AgentType) : Bool :=
  let role_lower := pyLower t.role
  (["budget", "cost", "expensive", "cheap"].any (fun w => pyIn w feedback_lower)
      && pyIn "media" role_lower)
    || (["creative", "content", "design", "visual"].any (fun w => pyIn w feedback_lower)
      && pyIn "creative" role_lower)
    || (["data", "metrics", "analytics", "performance"].any (fun w => pyIn w feedback_lower)
      && pyIn "data" role_lower)
    || (["brand", "message", "positioning"].any (fun w => pyIn w feedback_lower)
      && pyIn "brand" role_lower)

/-- The `for agent in self.agents` matching loop of `process_user_feedback`:
agents already on the panel by identity (`agent != impl_agent`) are skipped,
expertise matches are appended while the panel holds fewer than 3. Agents
carry their list positions, modelling Python object identity. -/
def feedback_panel_extend (impl_agent : Option (Nat × AgentType)) (feedback_lower : String)
    (ag : List (Nat × AgentType)) (panel : List (Nat × AgentType)) : List (Nat × AgentType) :=
  ag.foldl
    (fun acc p =>
      let distinct :=
        match impl_agent with
        | some q => decide (p.1 ≠ q.1)
        | none => true
      if distinct && decide (acc.length < 3) && expertise_match feedback_lower p.2
      then acc ++ [p] else acc)
    panel

/-- The backfill step of `process_user_feedback`: when fewer than 2 agents
were selected, append the first agent not already on the panel. -/
def feedback_panel_backfill (ag panel : List (Nat × AgentType)) : List (Nat × AgentType) :=
  if panel.length < 2 then
    match ag.find? (fun p => !((panel.map Prod.fst).contains p.1)) with
    | some p => panel ++ [p]
    | none => panel
  else panel

/-- The `feedback_response_agents` panel selection of `process_user_feedback`:
the Implementation agent first if present, then up to the cap the expertise
matches, then the backfill (the `impl_agent` lookup is written twice where
Python binds it once; both are the same first match). -/
def select_feedback_panel (agents : List AgentType) (user_feedback : String) : List (Nat × AgentType) :=
  feedback_panel_backfill agents.enum
    (feedback_panel_extend (agents.enum.find? (fun p => pyIn "Implementation" p.2.role))
      (pyLower user_feedback) agents.enum
      (match agents.enum.find? (fun p => pyIn "Implementation" p.2.role) with
       | some p => [p]
       | none => []))

/-- The `feedback_history` record appended by `process_user_feedback`. -/
def feedback_record (ts user_feedback : String) (requested_changes : List String)
    (panel : List (Nat × AgentType)) : Val :=
  .obj [("timestamp", .str ts),
        ("user_feedback", .str user_feedback),
        ("requested_changes", .list (requested_changes.map .str)),
        ("agents_responded", .list (panel.map (fun p => .str p.2.name)))]

/-- The two-line pattern `if name not in deliverables: deliverables[name] = {}`
followed by `deliverables[name].update(new)` (or a single-key write when
`key?` is given, modelling `deliverables[name][k] = v`). A non-dict value
under `name` would raise in Python and is left unchanged here; reachable
states only bind dicts under agent names. -/
def merge_agent_data (deliverables : Obj) (name : String) (new : Obj) : Obj :=
  (if (dictFind name deliverables).isSome then deliverables
   else deliverables ++ [(name, .obj [])]).map
    (fun p =>
      if p.1 = name then
        (p.1, match p.2 with
              | .obj cur => .obj (objUpdate cur new)
              | v => v)
      else p)

/-- Appending to `deliverables["feedback_history"]`, creating the empty list
first when the key is absent. A non-list value under the key would raise in
Python and is left unchanged here; reachable states only bind lists. -/
def append_feedback_history (deliverables : Obj) (rec : Val) : Obj :=
  (if (dictFind "feedback_history" deliverables).isSome then deliverables
   else deliverables ++ [("feedback_history", .list [])]).map
    (fun p =>
      if p.1 = "feedback_history" then
        (p.1, match p.2 with
              | .list xs => .list (xs ++ [rec])
              | v => v)
      else p)

/-- The panel members' `data_produced` merges of `process_user_feedback`
(the loop body's `if response.get("data_produced"): ... update(...)`). -/
def panel_merge_step (panel : List (Nat × AgentType)) (data_produced : Nat → Obj)
    (deliverables : Obj) : Obj :=
  panel.foldl
    (fun d p =>
      if !(data_produced p.1).isEmpty then merge_agent_data d p.2.name (data_produced p.1) else d)
    deliverables

/-- The Implementation agent's consolidated `feedback_iteration` write of
`process_user_feedback`; skipped when there is no Implementation agent or
when the final call raised (`impl_final = none`). -/
def impl_final_step (agents : List AgentType) (impl_final : Option Obj)
    (deliverables : Obj) : Obj :=
  match agents.enum.find? (fun p => pyIn "Implementation" p.2.role), impl_final with
  | some p, some final_data =>
      merge_agent_data deliverables p.2.name [("feedback_iteration", .obj final_data)]
  | _, _ => deliverables

/-- `process_user_feedback`'s effect on `self.deliverables`, parameterized by
the panel members' structured responses (`data_produced` of each
`respond_to_agent` result, by agent position; a failed call degrades to `{}`)
and by the Implementation agent's final adapted deliverable (`none` models
the call raising, which the source catches and skips). The synthetic "User"
transcript entry and the panel members' transcript entries touch only
`conversation_log`, not `deliverables`, and are not carried here. -/
def process_user_feedback_deliv (agents : List AgentType) (user_feedback : String)
    (requested_changes : List String) (ts : String)
    (data_produced : Nat → Obj) (impl_final : Option Obj) (deliverables : Obj) : Obj :=
  append_feedback_history
    (impl_final_step agents impl_final
      (panel_merge_step (select_feedback_panel agents user_feedback) data_produced deliverables))
    (feedback_record ts user_feedback requested_changes (select_feedback_panel agents user_feedback))

/-- The `feedback_history` list currently stored in a deliverables dict. -/
def feedback_history_of (deliverables : Obj) : List Val :=
  match dictFind "feedback_history" deliverables with
  | some (.list xs) => xs
  | _ => []

/- ============ Auxiliary definitions for the statements ============ -/

/-- The degradation shape of one transcript entry under total provider
failure: finalization stand-ins carry non-empty `summary` text and no
`message` key, every other entry carries non-empty `message` text. -/
def entry_degraded_ok (e : Entry) : Prop :=
  if e.message_type = "final_deliverable" then
    getStrD e.content "summary" ≠ "" ∧ dictFind "message" e.content = none
  else
    getStrD e.content "message" ≠ ""

/-- A synthetic transcript entry carrying only a message text. -/
def mk_msg_entry (msg : String) : Entry :=
  { agent_name := "A", agent_role := "R", message_type := "response",
    content := [("message", .str msg)], responding_to := none, round := 1 }

/-- A synthetic three-entry transcript whose last three messages carry at
least two completion-signal words. -/
def c3_log : List Entry :=
  [mk_msg_entry "We should finalize the plan",
   mk_msg_entry "Time to complete the budget",
   mk_msg_entry "Sounds good"]

/-- The degradation invariant of a failing session's state: every transcript
entry so far is a well-formed degraded turn, and every stored deliverable
value is a dict. -/
def session_inv (st : SessionState) : Prop :=
  (∀ e ∈ st.log, entry_degraded_ok e) ∧
  (∀ p ∈ st.deliverables, ∃ kvs, p.2 = Val.obj kvs)

/-- Projection of an optional value to its string payload, for decidable
statements about payload fields. -/
def valStrOf (v : Option Val) : Option String :=
  match v with
  | some (.str s) => some s
  | _ => none

/-- The allow-list branch of `_ensure_unique_deliverables` as a function of
the resolved allow-list: the ownership filter followed by the
non-empty-input minimum guarantee (keep exactly the first input key). -/
def ownership_filter_step (allowed_areas : List String) (deliverables : Obj) : Obj :=
  let unique_deliverables := ownership_filter allowed_areas deliverables
  if unique_deliverables.isEmpty && !deliverables.isEmpty then
    match deliverables with
    | kv :: _ => [kv]
    | [] => unique_deliverables
  else unique_deliverables

/- ===================== Helper lemmas ===================== -/

/-- A fold whose steps preserve an invariant preserves it. -/
theorem foldl_inv {α σ : Type} {P : σ → Prop} {f : σ → α → σ}
    (h : ∀ s a, P s → P (f s a)) :
    ∀ (l : List α) (s : σ), P s → P (l.foldl f s) := by
  intro l
  induction l with
  | nil => intro s hs; exact hs
  | cons a as ih => intro s hs; rw [List.foldl_cons]; exact ih _ (h s a hs)

/-- A non-empty left part makes a string append non-empty. -/
theorem str_append_ne_left (a b : String) (h : a ≠ "") : a ++ b ≠ "" := by
  intro hab
  apply h
  have hd := congrArg String.data hab
  rw [String.data_append] at hd
  have : a.data = [] := (List.append_eq_nil.mp hd).1
  exact String.ext this

/-- Members of a guarded insert-fold come from the start set or the list. -/
theorem mem_foldl_insert (p : String → Bool) :
    ∀ (l : List String) (d : List String) (x : String),
      x ∈ l.foldl (fun d t => if p t then d.insert t else d) d → x ∈ d ∨ x ∈ l := by
  intro l
  induction l with
  | nil => intro d x h; exact Or.inl h
  | cons a as ih =>
      intro d x h
      rw [List.foldl_cons] at h
      rcases ih _ x h with h' | h'
      · by_cases hp : p a = true
        · rw [if_pos hp] at h'
          rcases List.mem_insert_iff.mp h' with h'' | h''
          · exact Or.inr (by simp [h''])
          · exact Or.inl h''
        · rw [if_neg hp] at h'
          exact Or.inl h'
      · exact Or.inr (List.mem_cons_of_mem _ h')

/-- `_track_discussed_topic` only ever adds tracker-vocabulary words. -/
theorem mem_track_discussed_topic (d : List String) (c : String) (x : String)
    (h : x ∈ track_discussed_topic d c) : x ∈ d ∨ x ∈ key_topics := by
  unfold track_discussed_topic at h
  by_cases hc : c = ""
  · rw [if_pos hc] at h; exact Or.inl h
  · rw [if_neg hc] at h
    exact mem_foldl_insert _ _ _ _ h

/-- Any discussed set reachable by tracking stays inside the vocabulary. -/
theorem fold_track_subset (contribs : List String) :
    ∀ (d : List String), (∀ x ∈ d, x ∈ key_topics) →
      ∀ x ∈ contribs.foldl track_discussed_topic d, x ∈ key_topics := by
  induction contribs with
  | nil => intro d hd x hx; exact hd x hx
  | cons c cs ih =>
      intro d hd x hx
      rw [List.foldl_cons] at hx
      refine ih _ ?_ x hx
      intro y hy
      rcases mem_track_discussed_topic d c y hy with h | h
      · exact hd y h
      · exact h

/-- Over a vocabulary-contained discussed set the repetition guard counts at
most the two shared words, so it never fires. -/
theorem is_repetitive_topic_false_of_subset (d : List String)
    (hd : ∀ x ∈ d, x ∈ key_topics) (msg : String) :
    is_repetitive_topic d msg = false := by
  unfold is_repetitive_topic
  have hmono :
      repetitive_indicators.countP
          (fun indicator => pyIn indicator (pyLower msg) && d.contains indicator)
        ≤ repetitive_indicators.countP (fun w => key_topics.contains w) := by
    apply List.countP_mono_left
    intro x _ hx
    have hmem : x ∈ d := by
      have := (Bool.and_eq_true _ _).mp hx
      exact List.elem_iff.mp this.2
    exact List.elem_iff.mpr (hd x hmem)
  have h2 : repetitive_indicators.countP (fun w => key_topics.contains w) = 2 := by decide
  simp only [decide_eq_false_iff_not, Nat.not_lt]
  omega

/- ===================== Claim theorems ===================== -/

/-- C5: for every message text and every discussed-topics set,
`_is_repetitive_topic` lowercases the text and returns true iff more than 2
of the ten generic topic words occur in the text and are already in the
discussed set (at least 3 such words yields true, at most 2 yields false). -/
theorem is_repetitive_topic_iff (discussed_topics : List String) (msg : String) :
    is_repetitive_topic discussed_topics msg = true ↔
      2 < (repetitive_indicators.filter
            (fun w => pyIn w (pyLower msg) && decide (w ∈ discussed_topics))).length := by
  have hpred : (fun w => pyIn w (pyLower msg) && discussed_topics.contains w)
      = (fun w => pyIn w (pyLower msg) && decide (w ∈ discussed_topics)) := by
    funext w; simp
  unfold is_repetitive_topic
  simp only [hpred, List.countP_eq_length_filter, decide_eq_true_eq, gt_iff_lt]

/-- C9: the discussed-topics set built by any sequence of tracked
contributions stays inside the twelve-word tracker vocabulary; that
vocabulary shares exactly `budget` and `timeline` with the ten repetition
indicators; hence the repetition guard never fires on any reachable state
(so no structured-round turn is ever skipped as repetitive: the skip branch
requires the guard to return true). -/
theorem discussed_topics_never_repetitive (contribs : List String) (msg : String) :
    (∀ x ∈ contribs.foldl track_discussed_topic [], x ∈ key_topics) ∧
    repetitive_indicators.filter (fun w => decide (w ∈ key_topics)) = ["budget", "timeline"] ∧
    is_repetitive_topic (contribs.foldl track_discussed_topic []) msg = false := by
  have hsub := fold_track_subset contribs [] (by intro x hx; cases hx)
  exact ⟨hsub, by decide, is_repetitive_topic_false_of_subset _ hsub msg⟩

/-- C10: the ownership filter's role lookup probes the factory agent's
display name (a person name), no role key or role-key word occurs in any
factory display name (`find_role_key` returns `none` for all nine), and so
`_ensure_unique_deliverables` passes every deliverables dict through
unchanged for every factory agent. -/
theorem factory_names_bypass_ownership (t : AgentType) (d : Obj) :
    find_role_key t.name = none ∧ ensure_unique_deliverables t.name d = d := by
  have h : find_role_key t.name = none := by cases t <;> decide
  refine ⟨h, ?_⟩
  unfold ensure_unique_deliverables
  rw [h]
  cases d <;> simp

/-- `find?` over the freshness test computes the spec-side first fresh angle. -/
theorem find?_eq_first_fresh (discussed_topics : List String) :
    ∀ l : List String,
      l.find? (fun angle => !(pySplitWs angle).any (fun k => discussed_topics.contains k)) =
        first_fresh_angle discussed_topics l := by
  intro l
  induction l with
  | nil => rfl
  | cons a rest ih =>
      have hcond : ((pySplitWs a).all (fun k => !discussed_topics.contains k))
          = !((pySplitWs a).any (fun k => discussed_topics.contains k)) := by
        simp [List.all_eq_not_any_not]
      rw [first_fresh_angle, hcond]
      cases hany : (pySplitWs a).any (fun k => discussed_topics.contains k) with
      | true =>
          rw [List.find?_cons_of_neg _ (by simp only [hany]; decide), ih]
          simp
      | false =>
          rw [List.find?_cons_of_pos _ (by simp only [hany]; decide)]
          simp

/-- C7: for every role and discussed set, `_get_unique_expertise_angle`
returns the first angle of the role's ordered angle list none of whose
whitespace-split keywords is in the discussed set, and the list's first
angle when every angle has a discussed keyword. -/
theorem focus_angle_selection (role : String) (discussed_topics : List String) :
    get_unique_expertise_angle role discussed_topics =
      (first_fresh_angle discussed_topics (available_angles role)).getD
        ((available_angles role).headD "") := by
  show (match (available_angles role).find?
            (fun angle => !(pySplitWs angle).any (fun k => discussed_topics.contains k)) with
        | some angle => angle
        | none => (available_angles role).headD "") = _
  rw [find?_eq_first_fresh]
  cases first_fresh_angle discussed_topics (available_angles role) <;> simp

/-- In the role-found case `_ensure_unique_deliverables` is the allow-list
branch applied to the resolved allow-list. -/
theorem ensure_unique_eq_step (agent_name role_key : String) (d : Obj)
    (h : find_role_key agent_name = some role_key) :
    ensure_unique_deliverables agent_name d =
      ownership_filter_step ((agent_unique_areas.lookup role_key).getD []) d := by
  unfold ensure_unique_deliverables ownership_filter_step
  rw [h]

/-- The ownership filter is idempotent as a plain list filter. -/
theorem ownership_filter_idem (allowed_areas : List String) (d : Obj) :
    ownership_filter allowed_areas (ownership_filter allowed_areas d) =
      ownership_filter allowed_areas d := by
  unfold ownership_filter
  rw [List.filter_filter]
  simp [Bool.and_self]

/-- The allow-list branch (filter plus minimum guarantee) is idempotent. -/
theorem ownership_filter_step_idem (allowed_areas : List String) (d : Obj) :
    ownership_filter_step allowed_areas (ownership_filter_step allowed_areas d) =
      ownership_filter_step allowed_areas d := by
  rcases d with _ | ⟨kv, tl⟩
  · simp [ownership_filter_step, ownership_filter]
  · by_cases hu : ownership_filter allowed_areas (kv :: tl) = []
    · have hstep : ownership_filter_step allowed_areas (kv :: tl) = [kv] := by
        simp [ownership_filter_step, hu]
      have hufil : List.filter
          (fun kv => (allowed_areas.map pyLower).any (fun area => pyIn area (pyLower kv.1)))
          (kv :: tl) = [] := hu
      have h1 := List.filter_eq_nil_iff.mp hufil kv (by simp)
      have hkv' : ownership_filter allowed_areas [kv] = [] := by
        unfold ownership_filter
        simp only [List.filter_cons, List.filter_nil]
        rw [if_neg h1]
      rw [hstep]
      simp [ownership_filter_step, hkv', hstep]
    · have hstep : ownership_filter_step allowed_areas (kv :: tl) =
          ownership_filter allowed_areas (kv :: tl) := by
        simp [ownership_filter_step, hu]
      rw [hstep]
      have hne : (ownership_filter allowed_areas (kv :: tl)).isEmpty = false := by
        cases hcase : ownership_filter allowed_areas (kv :: tl) with
        | nil => exact absurd hcase hu
        | cons a as => simp
      simp [ownership_filter_step, ownership_filter_idem, hne]

/-- C6: for every agent identity with a configured allow-list (the role
lookup resolves) and every raw deliverables dict, applying
`_ensure_unique_deliverables` twice equals applying it once — including the
minimum-guarantee branch, where a non-empty input filtered to nothing keeps
exactly its first key. -/
theorem ensure_unique_deliverables_idempotent (agent_name role_key : String) (d : Obj)
    (h : find_role_key agent_name = some role_key) :
    ensure_unique_deliverables agent_name (ensure_unique_deliverables agent_name d)
      = ensure_unique_deliverables agent_name d := by
  rw [ensure_unique_eq_step agent_name role_key d h,
      ensure_unique_eq_step agent_name role_key _ h]
  exact ownership_filter_step_idem _ _

/-- Witness for C6 at a concrete configured identity and input. -/
theorem ensure_unique_deliverables_idempotent_witness :
    find_role_key "Market Researcher" = some "Market Researcher" ∧
    ensure_unique_deliverables "Market Researcher"
        (ensure_unique_deliverables "Market Researcher" [("competitive_analysis", .str "x"), ("other", .str "y")])
      = ensure_unique_deliverables "Market Researcher" [("competitive_analysis", .str "x"), ("other", .str "y")] :=
  ⟨by decide,
   ensure_unique_deliverables_idempotent "Market Researcher" "Market Researcher" _ (by decide)⟩

/-- Counterexample to C4 as stated: on an input wearing a fenced-code wrapper
whose inside is still not valid JSON, the stand-in's `message` is the
stripped text `"x"`, not the raw completion text. -/
theorem parse_json_response_counterexample :
    valStrOf (valGet "message" (parse_json_response loadsNone "```json x```")) = some "x" ∧
    "x" ≠ "```json x```" := by
  exact ⟨by decide, by decide⟩

/-- C4 (amended): for every completion text whose structured parse fails even
after stripping a fenced-code wrapper, `_parse_json_response` returns the
minimal stand-in `{message: strippedText, action_taken: "response",
data_produced: {}}` rather than raising — where `strippedText` is the
fence-stripped text, equal to the raw text whenever no fence wrapper is
present. -/
theorem parse_json_response_fallback (loads : String → Option Val) (response : String)
    (h : loads (stripFence response) = none) :
    parse_json_response loads response =
      .obj [("message", .str (stripFence response)), ("action_taken", .str "response"),
            ("data_produced", .obj [])] ∧
    (pyStartsWith response "```json" = false → pyStartsWith response "```" = false →
      stripFence response = response) := by
  constructor
  · show (match loads (stripFence response) with
          | some v => v
          | none => Val.obj [("message", .str (stripFence response)), ("action_taken", .str "response"),
                             ("data_produced", .obj [])]) = _
    rw [h]
  · intro h1 h2
    unfold stripFence
    rw [h1, h2]
    simp

/-- Witness for C4's amended theorem at a concrete failing input. -/
theorem parse_json_response_fallback_witness :
    parse_json_response loadsNone "not json" =
      .obj [("message", .str (stripFence "not json")), ("action_taken", .str "response"),
            ("data_produced", .obj [])] ∧
    (pyStartsWith "not json" "```json" = false → pyStartsWith "not json" "```" = false →
      stripFence "not json" = "not json") :=
  parse_json_response_fallback loadsNone "not json" rfl

/-- `_should_end_conversation` in closed form: end iff the round cap is
reached, or the transcript holds at least 3 messages and at least 2 of the
completion-signal words occur in the last three messages' joined lowercased
text. -/
theorem should_end_conversation_eq (conversation_rounds max_rounds : Nat) (log : List Entry) :
    should_end_conversation conversation_rounds max_rounds log =
      (decide (max_rounds ≤ conversation_rounds) ||
        (decide (3 ≤ log.length) && decide (2 ≤ signal_count log))) := by
  unfold should_end_conversation
  by_cases hge : conversation_rounds ≥ max_rounds
  · simp [hge]
  · rw [if_neg hge]
    have hdecge : decide (max_rounds ≤ conversation_rounds) = false := by
      simpa using hge
    by_cases hl : 3 ≤ log.length
    · have hrec : (recent_for_end log).length = 3 := by
        unfold recent_for_end
        rw [if_pos hl, List.length_drop]
        omega
      rw [if_pos (by omega : (recent_for_end log).length ≥ 2)]
      by_cases hs : 2 ≤ signal_count log
      · simp [hs, hdecge, hl]
      · simp [hs, hdecge, hl]
    · have hrec : recent_for_end log = [] := by
        unfold recent_for_end
        rw [if_neg hl]
      rw [hrec]
      simp [hdecge, hl]

/-- Counterexample to C3 as stated: after only 1 round (fewer than the
claimed 2) with `max_rounds = 3`, a 3-message transcript whose last three
messages carry 2 or more completion-signal words already makes
`_should_end_conversation` halt the CONVERSING phase, while the claimed
predicate (requiring at least 2 elapsed rounds) does not fire. -/
theorem early_stop_counterexample :
    should_end_conversation 1 3 c3_log = true ∧
    claimed_early_stop 1 c3_log = false ∧ (1 : Nat) < 3 := by
  exact ⟨by decide, by decide, by decide⟩

/-- C3 (amended): the early stop is guarded by transcript length, not rounds:
whenever the round cap is not yet reached, the CONVERSING phase halts early
iff the transcript holds at least 3 messages and the last 3 messages' text,
joined and lowercased, contains at least 2 of the five completion-signal
words (counted by distinct signal word present, `final` also matching inside
`finalize`). -/
theorem should_end_conversation_characterization (conversation_rounds max_rounds : Nat)
    (log : List Entry) (h : conversation_rounds < max_rounds) :
    should_end_conversation conversation_rounds max_rounds log = true ↔
      (3 ≤ log.length ∧ 2 ≤ signal_count log) := by
  rw [should_end_conversation_eq]
  have : decide (max_rounds ≤ conversation_rounds) = false := by
    simp
    omega
  rw [this]
  simp

/-- Witness for C3's amended theorem at a concrete state. -/
theorem should_end_conversation_characterization_witness :
    (1 : Nat) < 3 ∧
    (should_end_conversation 1 3 c3_log = true ↔ (3 ≤ c3_log.length ∧ 2 ≤ signal_count c3_log)) :=
  ⟨by decide, should_end_conversation_characterization 1 3 c3_log (by decide)⟩

/-- The round loop never runs past its fuel. -/
theorem conv_rounds_go_le (shouldEnd : Nat → Bool) :
    ∀ (n k r : Nat), r ≤ k → conv_rounds_go shouldEnd n k r ≤ k + n := by
  intro n
  induction n with
  | zero => intro k r h; simpa [conv_rounds_go] using h
  | succ m ih =>
      intro k r h
      unfold conv_rounds_go
      by_cases hs : shouldEnd (k + 1) = true
      · rw [if_pos hs]; omega
      · rw [if_neg hs]
        have := ih (k + 1) (k + 1) le_rfl
        omega

/-- C2: for every session, `total_rounds` never exceeds `max_rounds`; and
with `max_rounds = 3`, if the signal-based early-stop condition is false
after every round, exactly 3 conversing rounds occur. -/
theorem bounded_rounds :
    (∀ (max_rounds : Nat) (shouldEnd : Nat → Bool),
        conversation_rounds_after max_rounds shouldEnd ≤ max_rounds) ∧
    (∀ logAfter : Nat → List Entry,
        (∀ r, ¬ (3 ≤ (logAfter r).length ∧ 2 ≤ signal_count (logAfter r))) →
        conversation_rounds_after 3 (fun r => should_end_conversation r 3 (logAfter r)) = 3) := by
  constructor
  · intro max_rounds shouldEnd
    have := conv_rounds_go_le shouldEnd max_rounds 0 0 le_rfl
    simpa [conversation_rounds_after] using this
  · intro logAfter h
    have hfalse : ∀ r, r < 3 → should_end_conversation r 3 (logAfter r) = false := by
      intro r hr
      rw [should_end_conversation_eq]
      have hcap : decide (3 ≤ r) = false := by simp; omega
      cases hA : decide (3 ≤ (logAfter r).length) with
      | false => simp [hcap, hA]
      | true =>
          have hB : ¬ 2 ≤ signal_count (logAfter r) :=
            fun hB => h r ⟨of_decide_eq_true hA, hB⟩
          simp [hcap, hA, hB]
    have h1 := hfalse 1 (by omega)
    have h2 := hfalse 2 (by omega)
    simp [conversation_rounds_after, conv_rounds_go, h1, h2]

/-- Witness for C2 at concrete oracles. -/
theorem bounded_rounds_witness :
    conversation_rounds_after 2 (fun _ => false) ≤ 2 ∧
    conversation_rounds_after 3 (fun r => should_end_conversation r 3 ([] : List Entry)) = 3 :=
  ⟨bounded_rounds.1 2 _, bounded_rounds.2 (fun _ => []) (by intro r; simp)⟩

/-- The matching loop only ever appends, so it keeps a non-empty panel
non-empty. -/
theorem feedback_panel_extend_ne_nil (impl_agent : Option (Nat × AgentType))
    (feedback_lower : String) (ag panel : List (Nat × AgentType)) (h : panel ≠ []) :
    feedback_panel_extend impl_agent feedback_lower ag panel ≠ [] := by
  unfold feedback_panel_extend
  refine foldl_inv (P := fun s => s ≠ []) ?_ ag panel h
  intro s p hs
  by_cases hc : ((match impl_agent with
      | some q => decide (p.1 ≠ q.1)
      | none => true) && decide (s.length < 3) && expertise_match feedback_lower p.2) = true
  · rw [if_pos hc]
    simp
  · rw [if_neg hc]
    exact hs

/-- Backfill keeps a non-empty panel non-empty. -/
theorem feedback_panel_backfill_ne_nil (ag panel : List (Nat × AgentType)) (h : panel ≠ []) :
    feedback_panel_backfill ag panel ≠ [] := by
  unfold feedback_panel_backfill
  by_cases hl : panel.length < 2
  · rw [if_pos hl]
    cases ag.find? (fun p => !((panel.map Prod.fst).contains p.1)) with
    | none => exact h
    | some p => simp
  · rw [if_neg hl]
    exact h

/-- Backfill of an empty panel over a non-empty agent list picks the first
agent. -/
theorem feedback_panel_backfill_nil_ne (q : Nat × AgentType) (rest : List (Nat × AgentType)) :
    feedback_panel_backfill (q :: rest) [] ≠ [] := by
  unfold feedback_panel_backfill
  rw [if_pos (by simp), List.find?_cons_of_pos _ (by simp)]
  simp

/-- The feedback panel is non-empty whenever the orchestrator holds at least
one agent. -/
theorem select_feedback_panel_ne_nil (agents : List AgentType) (user_feedback : String)
    (h : agents ≠ []) : select_feedback_panel agents user_feedback ≠ [] := by
  obtain ⟨a, as, rfl⟩ : ∃ a as, agents = a :: as := by
    cases agents with
    | nil => exact absurd rfl h
    | cons a as => exact ⟨a, as, rfl⟩
  unfold select_feedback_panel
  cases himpl : (a :: as).enum.find? (fun p => pyIn "Implementation" p.2.role) with
  | some p =>
      exact feedback_panel_backfill_ne_nil _ _
        (feedback_panel_extend_ne_nil _ _ _ _ (by simp))
  | none =>
      by_cases hp : feedback_panel_extend none (pyLower user_feedback) (a :: as).enum [] = []
      · rw [hp, List.enum_cons]
        exact feedback_panel_backfill_nil_ne _ _
      · exact feedback_panel_backfill_ne_nil _ _ hp

/-- No factory agent is displayed as the reserved `feedback_history` key. -/
theorem agent_name_ne_feedback_history (t : AgentType) : t.name ≠ "feedback_history" := by
  cases t <;> decide

/-- Looking a key up after rewriting the value at a different key is
unchanged. -/
theorem dictFind_map_at_other (d : Obj) (name k : String) (g : Val → Val) (h : name ≠ k) :
    dictFind k (d.map (fun p => if p.1 = name then (p.1, g p.2) else p)) = dictFind k d := by
  induction d with
  | nil => rfl
  | cons p rest ih =>
      obtain ⟨pk, pv⟩ := p
      simp only [List.map_cons]
      by_cases hpk : pk = name
      · have hk : ¬ pk = k := fun hh => h (by rw [← hpk]; exact hh)
        rw [if_pos hpk]
        unfold dictFind
        rw [if_neg hk, if_neg hk]
        exact ih
      · rw [if_neg hpk]
        unfold dictFind
        by_cases hk : pk = k
        · rw [if_pos hk, if_pos hk]
        · rw [if_neg hk, if_neg hk]
          exact ih

/-- Looking a key up after appending a binding for a different key is
unchanged. -/
theorem dictFind_append_other (d : Obj) (name k : String) (v : Val) (h : name ≠ k) :
    dictFind k (d ++ [(name, v)]) = dictFind k d := by
  induction d with
  | nil =>
      show dictFind k [(name, v)] = dictFind k []
      unfold dictFind
      rw [if_neg h]
      rfl
  | cons p rest ih =>
      obtain ⟨pk, pv⟩ := p
      show dictFind k ((pk, pv) :: (rest ++ [(name, v)])) = dictFind k ((pk, pv) :: rest)
      unfold dictFind
      by_cases hk : pk = k
      · rw [if_pos hk, if_pos hk]
      · rw [if_neg hk, if_neg hk]
        exact ih

/-- Appending a binding for an absent key makes it found. -/
theorem dictFind_append_self (d : Obj) (k : String) (v : Val)
    (h : dictFind k d = none) : dictFind k (d ++ [(k, v)]) = some v := by
  induction d with
  | nil =>
      show dictFind k [(k, v)] = some v
      unfold dictFind
      rw [if_pos rfl]
  | cons p rest ih =>
      obtain ⟨pk, pv⟩ := p
      unfold dictFind at h
      show dictFind k ((pk, pv) :: (rest ++ [(k, v)])) = some v
      unfold dictFind
      by_cases hk : pk = k
      · rw [if_pos hk] at h
        cases h
      · rw [if_neg hk] at h
        rw [if_neg hk]
        exact ih h

/-- Rewriting the value at a found key yields the rewritten value. -/
theorem dictFind_map_at_self (d : Obj) (k : String) (g : Val → Val) (v : Val)
    (h : dictFind k d = some v) :
    dictFind k (d.map (fun p => if p.1 = k then (p.1, g p.2) else p)) = some (g v) := by
  induction d with
  | nil => cases h
  | cons p rest ih =>
      obtain ⟨pk, pv⟩ := p
      unfold dictFind at h
      simp only [List.map_cons]
      by_cases hk : pk = k
      · rw [if_pos hk] at h
        injection h with h
        subst h
        rw [if_pos hk]
        unfold dictFind
        rw [if_pos hk]
      · rw [if_neg hk] at h
        rw [if_neg hk]
        unfold dictFind
        rw [if_neg hk]
        exact ih h

/-- A per-agent merge under a different key leaves that key's binding
unchanged. -/
theorem dictFind_merge_agent_data (d : Obj) (name k : String) (new : Obj) (h : name ≠ k) :
    dictFind k (merge_agent_data d name new) = dictFind k d := by
  unfold merge_agent_data
  by_cases hs : (dictFind name d).isSome = true
  · rw [if_pos hs]
    exact dictFind_map_at_other d name k
      (fun v => match v with | .obj cur => .obj (objUpdate cur new) | v => v) h
  · rw [if_neg hs]
    rw [dictFind_map_at_other (d ++ [(name, .obj [])]) name k
      (fun v => match v with | .obj cur => .obj (objUpdate cur new) | v => v) h]
    exact dictFind_append_other d name k (.obj []) h

/-- The panel merges leave the `feedback_history` binding unchanged. -/
theorem dictFind_fh_panel_merge (panel : List (Nat × AgentType)) (data_produced : Nat → Obj) :
    ∀ d : Obj,
      dictFind "feedback_history" (panel_merge_step panel data_produced d)
        = dictFind "feedback_history" d := by
  unfold panel_merge_step
  induction panel with
  | nil => intro d; rfl
  | cons p rest ih =>
      intro d
      rw [List.foldl_cons]
      rw [ih]
      by_cases hc : (!(data_produced p.1).isEmpty) = true
      · rw [if_pos hc]
        exact dictFind_merge_agent_data _ _ _ _ (agent_name_ne_feedback_history p.2)
      · rw [if_neg hc]

/-- The Implementation agent's final write leaves the `feedback_history`
binding unchanged. -/
theorem dictFind_fh_impl_final (agents : List AgentType) (impl_final : Option Obj) (d : Obj) :
    dictFind "feedback_history" (impl_final_step agents impl_final d)
      = dictFind "feedback_history" d := by
  unfold impl_final_step
  cases hfind : agents.enum.find? (fun p => pyIn "Implementation" p.2.role) with
  | none => rfl
  | some p =>
      cases impl_final with
      | none => rfl
      | some final_data =>
          exact dictFind_merge_agent_data _ _ _ _ (agent_name_ne_feedback_history p.2)

/-- Appending a feedback record extends the stored history by exactly that
record (the key's current value is absent or a list, as in every reachable
state). -/
theorem feedback_history_of_append (d : Obj) (rec : Val)
    (h : dictFind "feedback_history" d = none ∨
         ∃ xs, dictFind "feedback_history" d = some (.list xs)) :
    feedback_history_of (append_feedback_history d rec) = feedback_history_of d ++ [rec] := by
  unfold append_feedback_history feedback_history_of
  rcases h with h | ⟨xs, h⟩
  · rw [h]
    simp only [Option.isSome_none, Bool.false_eq_true, if_false]
    have h' : dictFind "feedback_history"
        (List.map
          (fun p =>
            if p.1 = "feedback_history" then
              (p.1, match p.2 with
                    | Val.list xs => Val.list (xs ++ [rec])
                    | v => v)
            else p)
          (d ++ [("feedback_history", Val.list [])])) = some (Val.list ([] ++ [rec])) :=
      dictFind_map_at_self (d ++ [("feedback_history", Val.list [])]) "feedback_history"
        (fun v => match v with | Val.list xs => Val.list (xs ++ [rec]) | v => v)
        (Val.list []) (dictFind_append_self d "feedback_history" (Val.list []) h)
    rw [h']
  · rw [h]
    simp only [Option.isSome_some, if_true]
    have h' : dictFind "feedback_history"
        (List.map
          (fun p =>
            if p.1 = "feedback_history" then
              (p.1, match p.2 with
                    | Val.list xs => Val.list (xs ++ [rec])
                    | v => v)
            else p)
          d) = some (Val.list (xs ++ [rec])) :=
      dictFind_map_at_self d "feedback_history"
        (fun v => match v with | Val.list xs => Val.list (xs ++ [rec]) | v => v)
        (Val.list xs) h
    rw [h']

/-- C8: for every feedback text and requested-changes list, when the
orchestrator holds at least one agent `process_user_feedback` selects a
non-empty responding-agent panel, and each call appends exactly one record to
the `feedback_history` list, whatever the panel members and the
Implementation agent produced. -/
theorem process_user_feedback_ok (agents : List AgentType) (user_feedback : String)
    (requested_changes : List String) (ts : String)
    (data_produced : Nat → Obj) (impl_final : Option Obj) (deliverables : Obj)
    (hagents : agents ≠ [])
    (hfh : dictFind "feedback_history" deliverables = none ∨
           ∃ xs, dictFind "feedback_history" deliverables = some (.list xs)) :
    select_feedback_panel agents user_feedback ≠ [] ∧
    feedback_history_of
        (process_user_feedback_deliv agents user_feedback requested_changes ts
          data_produced impl_final deliverables)
      = feedback_history_of deliverables
          ++ [feedback_record ts user_feedback requested_changes
                (select_feedback_panel agents user_feedback)] := by
  refine ⟨select_feedback_panel_ne_nil agents user_feedback hagents, ?_⟩
  unfold process_user_feedback_deliv
  have hpres :
      dictFind "feedback_history"
          (impl_final_step agents impl_final
            (panel_merge_step (select_feedback_panel agents user_feedback) data_produced deliverables))
        = dictFind "feedback_history" deliverables := by
    rw [dictFind_fh_impl_final, dictFind_fh_panel_merge]
  rw [feedback_history_of_append _ _ (by rw [hpres]; exact hfh)]
  unfold feedback_history_of
  rw [hpres]

/-- Witness for C8 at a concrete one-agent orchestrator and empty history. -/
theorem process_user_feedback_ok_witness :
    select_feedback_panel [AgentType.media_planner] "x" ≠ [] ∧
    feedback_history_of
        (process_user_feedback_deliv [AgentType.media_planner] "x" [] "t"
          (fun _ => []) none [])
      = feedback_history_of []
          ++ [feedback_record "t" "x" [] (select_feedback_panel [AgentType.media_planner] "x")] :=
  process_user_feedback_ok [AgentType.media_planner] "x" [] "t" (fun _ => []) none []
    (by decide) (Or.inl rfl)

/-- A system entry with non-empty message text is a well-formed degraded
turn. -/
theorem entry_ok_of_message (name role mtype msg : String) (rto : Option String) (r : Nat)
    (hm : mtype ≠ "final_deliverable") (hmsg : msg ≠ "") :
    entry_degraded_ok
      { agent_name := name, agent_role := role, message_type := mtype,
        content := [("message", .str msg)], responding_to := rto, round := r } := by
  unfold entry_degraded_ok
  rw [if_neg hm]
  simpa [getStrD, dictFind] using hmsg

/-- `_log_system_message` preserves the degradation invariant when the
message is non-empty. -/
theorem session_inv_system (msg : String) (hmsg : msg ≠ "") (st : SessionState)
    (h : session_inv st) : session_inv (log_system_message msg st) := by
  obtain ⟨hlog, hdel⟩ := h
  refine ⟨?_, hdel⟩
  intro e he
  unfold log_system_message at he
  simp only [List.mem_append, List.mem_singleton] at he
  rcases he with he | he
  · exact hlog e he
  · subst he
    exact entry_ok_of_message _ _ _ _ _ _ (by decide) hmsg

/-- The thinking phase preserves the degradation invariant. -/
theorem session_inv_thinking (agents : List AgentType) (err : String) (st : SessionState)
    (h : session_inv st) : session_inv (thinking_phase agents err st) := by
  have h1 := session_inv_system "🧠 Phase 1: Agents are analyzing the project..." (by decide) st h
  exact ⟨h1.1, h1.2⟩

/-- Every class's degraded introduction payload carries non-empty message
text. -/
theorem initiate_fallback_message_ne (ctx err ts : String) (t : AgentType) :
    getStrD (initiate_fallback ctx err ts t) "message" ≠ "" := by
  cases t
  case market_researcher =>
    unfold initiate_fallback market_researcher_initiate_failing
    by_cases hn : needs_competitor_research ctx = true
    · rw [if_pos hn]
      simp only [getStrD, dictFind, if_pos rfl]
      exact str_append_ne_left _ _ (str_append_ne_left _ _ (by decide))
    · rw [if_neg hn]
      show getStrD (base_introduction_fallback AgentType.market_researcher) "message" ≠ ""
      decide
  case brand_strategist =>
    simp only [initiate_fallback, brand_strategist_initiate_fallback, getStrD, dictFind,
      if_pos rfl]
    exact str_append_ne_left _ _ (str_append_ne_left _ _ (by decide))
  case creative_director =>
    simp only [initiate_fallback, creative_director_initiate_fallback, getStrD, dictFind,
      if_pos rfl]
    exact str_append_ne_left _ _ (str_append_ne_left _ _ (by decide))
  case data_analyst =>
    simp only [initiate_fallback, data_analyst_initiate_fallback, getStrD, dictFind,
      if_pos rfl]
    exact str_append_ne_left _ _ (str_append_ne_left _ _ (by decide))
  case implementation_specialist =>
    simp only [initiate_fallback, implementation_specialist_initiate_fallback, getStrD, dictFind,
      if_pos rfl]
    exact str_append_ne_left _ _ (by decide)
  case investor =>
    simp only [initiate_fallback, investor_initiate_fallback, getStrD, dictFind, if_pos rfl]
    exact str_append_ne_left _ _ (by decide)
  case media_planner =>
      show getStrD (base_introduction_fallback AgentType.media_planner) "message" ≠ ""
      decide
  case content_strategist =>
      show getStrD (base_introduction_fallback AgentType.content_strategist) "message" ≠ ""
      decide
  case customer_insights =>
      show getStrD (base_introduction_fallback AgentType.customer_insights) "message" ≠ ""
      decide

/-- Writing a dict value into the deliverables map keeps all values dicts. -/
theorem dictSet_obj_values (d : Obj) (k : String) (kvs : Obj)
    (hd : ∀ p ∈ d, ∃ w, p.2 = Val.obj w) :
    ∀ p ∈ dictSet d k (Val.obj kvs), ∃ w, p.2 = Val.obj w := by
  unfold dictSet
  by_cases hs : (dictFind k d).isSome = true
  · rw [if_pos hs]
    intro p hp
    rcases List.mem_map.mp hp with ⟨q, hq, hpq⟩
    subst hpq
    by_cases hqk : q.1 = k
    · rw [if_pos hqk]
      exact ⟨kvs, rfl⟩
    · rw [if_neg hqk]
      exact hd q hq
  · rw [if_neg hs]
    intro p hp
    rcases List.mem_append.mp hp with hp | hp
    · exact hd p hp
    · simp only [List.mem_singleton] at hp
      subst hp
      exact ⟨kvs, rfl⟩

/-- One introduction turn preserves the degradation invariant. -/
theorem session_inv_introduction_step (ctx err ts : String) (st : SessionState) (t : AgentType)
    (h : session_inv st) : session_inv (introduction_step ctx err ts st t) := by
  obtain ⟨hlog, hdel⟩ := h
  have hlog' : ∀ e ∈ st.log ++
      [{ agent_name := t.name, agent_role := t.role, message_type := "introduction",
         content := initiate_fallback ctx err ts t, responding_to := none,
         round := 0 : Entry }], entry_degraded_ok e := by
    intro e he
    rcases List.mem_append.mp he with he | he
    · exact hlog e he
    · simp only [List.mem_singleton] at he
      subst he
      show getStrD (initiate_fallback ctx err ts t) "message" ≠ ""
      exact initiate_fallback_message_ne ctx err ts t
  unfold introduction_step
  split
  · split
    · exact ⟨hlog', dictSet_obj_values _ _ _ hdel⟩
    · exact ⟨hlog', hdel⟩
  · exact ⟨hlog', hdel⟩

/-- The introduction phase preserves the degradation invariant. -/
theorem session_inv_introduction (ctx err ts : String) (agents : List AgentType)
    (st : SessionState) (h : session_inv st) :
    session_inv (introduction_phase ctx err ts agents st) := by
  unfold introduction_phase
  refine foldl_inv (P := session_inv) ?_ agents _
    (session_inv_system _ (by decide) st h)
  intro s a hs
  exact session_inv_introduction_step ctx err ts s a hs

/-- The applied structured-round response preserves the degradation
invariant: its entry is the fixed degraded payload and its `data_produced`
is empty, so the deliverables are untouched. -/
theorem session_inv_structured_step_apply (st : SessionState) (t : AgentType) (lm : Entry)
    (h : session_inv st) : session_inv (structured_step_apply st t lm) := by
  obtain ⟨hlog, hdel⟩ := h
  show session_inv
    { st with
        discussed_topics :=
          track_discussed_topic st.discussed_topics (getStrD respond_fallback "contribution"),
        log := st.log ++ [respond_entry st t lm] }
  refine ⟨?_, hdel⟩
  intro e he
  rcases List.mem_append.mp he with he | he
  · exact hlog e he
  · simp only [List.mem_singleton] at he
    subst he
    show getStrD respond_fallback "message" ≠ ""
    decide

/-- One structured-round turn preserves the degradation invariant. -/
theorem session_inv_structured_step (st : SessionState) (it : Nat × AgentType)
    (h : session_inv st) : session_inv (structured_step st it) := by
  unfold structured_step
  split
  · exact h
  · split
    · exact h
    · split
      · exact h
      · exact session_inv_structured_step_apply _ _ _ h

/-- A structured round preserves the degradation invariant. -/
theorem session_inv_structured_round (agents : List AgentType) (st : SessionState)
    (h : session_inv st) : session_inv (structured_round agents st) := by
  unfold structured_round
  exact foldl_inv (P := session_inv) (fun s a hs => session_inv_structured_step s a hs) _ _ h

/-- One round body preserves the degradation invariant. -/
theorem session_inv_conv_round_state (agents : List AgentType) (round_num : Nat)
    (st : SessionState) (h : session_inv st) :
    session_inv (conv_round_state agents round_num st) := by
  unfold conv_round_state
  split
  · exact session_inv_structured_round agents _ ⟨h.1, h.2⟩
  · exact ⟨h.1, h.2⟩

/-- The round loop preserves the degradation invariant. -/
theorem session_inv_conv_go (agents : List AgentType) :
    ∀ (n round_num : Nat) (st : SessionState), session_inv st →
      session_inv (conv_phase_go agents n round_num st) := by
  intro n
  induction n with
  | zero => intro round_num st h; exact h
  | succ m ih =>
      intro round_num st h
      unfold conv_phase_go
      split
      · exact session_inv_conv_round_state agents round_num st h
      · exact ih _ _ (session_inv_conv_round_state agents round_num st h)

/-- The conversation phase preserves the degradation invariant. -/
theorem session_inv_conversation (agents : List AgentType) (st : SessionState)
    (h : session_inv st) : session_inv (conversation_phase agents st) := by
  unfold conversation_phase
  exact session_inv_conv_go agents 3 0 _ (session_inv_system _ (by decide) st h)

/-- The finalization phase preserves the degradation invariant; its entries
are the summary-only stand-ins. -/
theorem session_inv_finalization (agents : List AgentType) (st : SessionState)
    (h : session_inv st) : session_inv (finalization_phase agents st) := by
  unfold finalization_phase
  refine foldl_inv (P := session_inv) ?_ agents _ (session_inv_system _ (by decide) st h)
  intro s t hs
  obtain ⟨hlog, hdel⟩ := hs
  refine ⟨?_, hdel⟩
  intro e he
  rcases List.mem_append.mp he with he | he
  · exact hlog e he
  · simp only [List.mem_singleton] at he
    subst he
    show getStrD [("summary", Val.str ("Finalizing " ++ t.role ++ " deliverables..."))] "summary" ≠ "" ∧
        dictFind "message" [("summary", Val.str ("Finalizing " ++ t.role ++ " deliverables..."))] = none
    constructor
    · show ("Finalizing " ++ t.role ++ " deliverables...") ≠ ""
      exact str_append_ne_left _ _ (str_append_ne_left _ _ (by decide))
    · rfl

/-- Counterexample to C1 as stated: in a one-agent session under total
provider failure, the finalization turn's transcript entry carries no
`message` key at all (its content is the summary-only stand-in), so not
every transcript entry's content carries non-empty fallback message text. -/
theorem degrade_not_crash_counterexample :
    ∃ e ∈ (start_collaboration_failing [AgentType.media_planner] "" "" "").conversation_log,
      e.message_type = "final_deliverable" ∧ (dictFind "message" e.content).isNone = true := by
  decide

/-- C1 (amended): if the completion provider fails on every call,
`start_collaboration` still runs all four phases to completion (the model is
a total function over the four phase functions) and returns a complete
session result in which every transcript entry's content carries non-empty
fallback text — `message` text for every entry except the finalization
stand-ins, which carry non-empty `summary` text and no `message` key — the
deliverables map is a well-formed dict of per-agent dicts (possibly absent
per agent), and the involved-agents list covers every agent. -/
theorem degrade_not_crash_amended (agents : List AgentType) (ctx err ts : String) :
    (∀ e ∈ (start_collaboration_failing agents ctx err ts).conversation_log,
        entry_degraded_ok e) ∧
    (∀ p ∈ (start_collaboration_failing agents ctx err ts).deliverables,
        ∃ kvs, p.2 = Val.obj kvs) ∧
    (start_collaboration_failing agents ctx err ts).agents_involved
      = agents.map (fun t => (t.name, t.role)) := by
  have hinv : session_inv (session_final_state agents ctx err ts) := by
    apply session_inv_finalization
    apply session_inv_conversation
    apply session_inv_introduction
    apply session_inv_thinking
    exact ⟨fun e he => absurd he (List.not_mem_nil e),
           fun p hp => absurd hp (List.not_mem_nil p)⟩
  exact ⟨hinv.1, hinv.2, rfl⟩
